import Mathlib

/-!
Shallow embedding of the pacman repository's core simulation code
(build/app.js) and proofs about it.  Class methods are embedded as
functions in namespaces named after their classes; instance state that a
method reads is passed explicitly.  JS numbers are modelled by exact
rationals (positions, durations) or integers (timestamps); the only
floating-point operation the embedded code uses, Math.sqrt inside
Ghost.calculateDistance, is modelled by the exact real square root.
JS array indexing, which yields undefined out of bounds, is modelled by
Option-returning lookups.
-/

namespace PacmanSim

/-- The four travel directions (CharacterUtil.directions). -/
inductive Dir where
  | up
  | down
  | left
  | right
deriving DecidableEq, Repr

/-- An x-y position on the 2D maze grid, in fractional tile coordinates. -/
structure GridPos where
  x : ℚ
  y : ℚ
deriving DecidableEq, Repr

/-- A css pixel position (top, left). -/
structure PixelPos where
  top : ℚ
  left : ℚ
deriving DecidableEq, Repr

namespace CharacterUtil

/-- CharacterUtil.getOppositeDirection. -/
def getOppositeDirection : Dir → Dir
  | Dir.up => Dir.down
  | Dir.down => Dir.up
  | Dir.left => Dir.right
  | Dir.right => Dir.left

/-- CharacterUtil.determineRoundingFunction: Math.floor for up/left,
Math.ceil for down/right. -/
def determineRoundingFunction : Dir → ℚ → ℤ
  | Dir.up => Int.floor
  | Dir.left => Int.floor
  | _ => Int.ceil

/-- CharacterUtil.determineGridPosition: css position to fractional
grid coordinates. -/
def determineGridPosition (position : PixelPos) (scaledTileSize : ℚ) : GridPos :=
  { x := position.left / scaledTileSize + 1/2
    y := position.top / scaledTileSize + 1/2 }

/-- JS array lookup with an integer index: undefined (none) out of bounds. -/
def arrayLookup {α : Type} (l : List α) (i : ℤ) : Option α :=
  if h : 0 ≤ i ∧ i.toNat < l.length then some (l.get ⟨i.toNat, h.2⟩) else none

/-- The mazeArray cell read by checkForWallCollision: row desiredY, column
desiredX, undefined (none) when either index is out of bounds. -/
def cellAt (mazeArray : List (List Char)) (desiredY desiredX : ℤ) : Option Char :=
  match arrayLookup mazeArray desiredY with
  | some row => arrayLookup row desiredX
  | none => none

/-- CharacterUtil.checkForWallCollision: rounds the target coordinates with
the direction's rounding function and reports a wall exactly when the looked
up grid value is the character X. -/
def checkForWallCollision (desiredNewGridPosition : GridPos)
    (mazeArray : List (List Char)) (direction : Dir) : Bool :=
  let roundingFunction := determineRoundingFunction direction
  let desiredX := roundingFunction desiredNewGridPosition.x
  let desiredY := roundingFunction desiredNewGridPosition.y
  let newGridValue := cellAt mazeArray desiredY desiredX
  newGridValue == some 'X'

/-- CharacterUtil.snapToGrid: rounds the grid coordinate on the axis of
travel and converts back to a css position. -/
def snapToGrid (position : GridPos) (direction : Dir) (scaledTileSize : ℚ) : PixelPos :=
  let roundingFunction := determineRoundingFunction direction
  let newPosition : GridPos :=
    match direction with
    | Dir.up => { position with y := (roundingFunction position.y : ℚ) }
    | Dir.down => { position with y := (roundingFunction position.y : ℚ) }
    | _ => { position with x := (roundingFunction position.x : ℚ) }
  { top := (newPosition.y - 1/2) * scaledTileSize
    left := (newPosition.x - 1/2) * scaledTileSize }

end CharacterUtil

/-- The observable state of a Timer: its remaining delay in ms, the
timestamp at which it was last scheduled, whether a timeout is currently
scheduled (timerId live), and the pausedBySystem flag. -/
structure TimerState where
  remaining : ℤ
  start : ℤ
  scheduled : Bool
  pausedBySystem : Bool
deriving DecidableEq, Repr

namespace Timer

/-- Timer.prototype.pause: clears the timeout, subtracts the wall time
elapsed since the last (re)schedule from the remaining delay, and records
a system pause in pausedBySystem. -/
def pause (systemPause : Bool) (now : ℤ) (s : TimerState) : TimerState :=
  { s with
    scheduled := false
    remaining := s.remaining - (now - s.start)
    pausedBySystem := if systemPause then true else s.pausedBySystem }

/-- Timer.prototype.resume: when the resume is a system resume or the
timer was not paused by the system, clears pausedBySystem, records the
current time as the new start, and schedules a timeout for the remaining
delay; otherwise does nothing. -/
def resume (systemResume : Bool) (now : ℤ) (s : TimerState) : TimerState :=
  if systemResume || !s.pausedBySystem then
    { s with pausedBySystem := false, start := now, scheduled := true }
  else s

/-- The Timer constructor: stores the delay as the remaining duration and
calls resume (with no system flag) to schedule the callback. -/
def new (delay : ℤ) (now : ℤ) : TimerState :=
  resume false now
    { remaining := delay, start := now, scheduled := false, pausedBySystem := false }

/-- The timestamp at which a scheduled timer's callback will fire:
the schedule time plus the remaining delay passed to setTimeout. -/
def fireTime (s : TimerState) : ℤ := s.start + s.remaining

end Timer

namespace GameEngine

/-- The loop body of GameEngine.processFrames: while the accumulated
elapsedMs covers a full timestep, run one update, pop one timestep from
the accumulator and bump numUpdateSteps; once numUpdateSteps reaches
maxFps, panic (reset elapsedMs to 0) and break.  Returns the final
(elapsedMs, numUpdateSteps) pair; numUpdateSteps counts update calls. -/
def processFramesLoop (timestep : ℚ) (maxFps : ℕ) (elapsedMs : ℚ)
    (numUpdateSteps : ℕ) : ℚ × ℕ :=
  if timestep ≤ elapsedMs then
    if h : maxFps ≤ numUpdateSteps + 1 then (0, numUpdateSteps + 1)
    else processFramesLoop timestep maxFps (elapsedMs - timestep) (numUpdateSteps + 1)
  else (elapsedMs, numUpdateSteps)
termination_by maxFps - numUpdateSteps
decreasing_by omega

/-- GameEngine.processFrames: runs the update loop starting from zero
update steps. -/
def processFrames (timestep : ℚ) (maxFps : ℕ) (elapsedMs : ℚ) : ℚ × ℕ :=
  processFramesLoop timestep maxFps elapsedMs 0

end GameEngine

/-- The slice of GameCoordinator state driving ghost-combo scoring. -/
structure ComboState where
  ghostCombo : ℕ
deriving DecidableEq, Repr

/-- The slice of GameCoordinator state driving the extra-life award. -/
structure SessionState where
  points : ℕ
  lives : ℕ
  extraLifeGiven : Bool
deriving DecidableEq, Repr

namespace GameCoordinator

/-- GameCoordinator.powerUp, combo slice: a new power window resets
ghostCombo to zero. -/
def powerUp (_s : ComboState) : ComboState :=
  { ghostCombo := 0 }

/-- GameCoordinator.determineComboPoints: 100 times 2 to the current
ghostCombo. -/
def determineComboPoints (s : ComboState) : ℕ :=
  100 * 2 ^ s.ghostCombo

/-- GameCoordinator.eatGhost, scoring slice: increments ghostCombo, then
awards determineComboPoints of the incremented state.  Returns the new
state and the points dispatched through the awardPoints event. -/
def eatGhost (s : ComboState) : ComboState × ℕ :=
  let s' : ComboState := { ghostCombo := s.ghostCombo + 1 }
  (s', determineComboPoints s')

/-- GameCoordinator.awardPoints, life slice: adds the points, and when
the running total reaches 10000 with extraLifeGiven still unset, sets the
flag and grants one extra life. -/
def awardPoints (s : SessionState) (points : ℕ) : SessionState :=
  let newPoints := s.points + points
  if 10000 ≤ newPoints ∧ s.extraLifeGiven = false then
    { points := newPoints, lives := s.lives + 1, extraLifeGiven := true }
  else
    { s with points := newPoints }

end GameCoordinator

/-- Ghost behavior modes. -/
inductive Mode where
  | chase
  | scatter
  | scared
  | eyes
deriving DecidableEq, Repr

/-- The four ghost identities. -/
inductive GhostName where
  | blinky
  | pinky
  | inky
  | clyde
deriving DecidableEq, Repr

/-- Instance state a ghost's targeting reads besides its own grid
position: pacman's current direction, blinky's grid position (used by
inky, already converted from pixels) and blinky's cruiseElroy flag. -/
structure GhostEnv where
  pacmanDirection : Dir
  blinkyGridPosition : GridPos
  cruiseElroy : Bool

/-- The ghost instance fields read and written by becomeScared and
checkCollision. -/
structure GhostState where
  mode : Mode
  direction : Dir
  position : PixelPos
  allowCollision : Bool
deriving DecidableEq, Repr

/-- The discrete events a ghost dispatches on the global bus during
collision handling. -/
inductive GhostEvent where
  | eatGhost
  | deathSequence
deriving DecidableEq, Repr

namespace Ghost

/-- Ghost.isInGhostHouse. -/
def isInGhostHouse (gridPosition : GridPos) : Bool :=
  decide ((9 < gridPosition.x ∧ gridPosition.x < 18) ∧
    (11 < gridPosition.y ∧ gridPosition.y < 17))

/-- Ghost.calculateDistance: Math.sqrt of the sum of the squared
coordinate differences (the Pythagorean theorem). -/
noncomputable def calculateDistance (position pacman : GridPos) : ℝ :=
  Real.sqrt ((((position.x : ℝ) - (pacman.x : ℝ)) ^ 2) +
    (((position.y : ℝ) - (pacman.y : ℝ)) ^ 2))

/-- JS array lookup with a Number index: defined only when the index is a
non-negative integer within bounds (a fractional index reads undefined). -/
def numberLookup {α : Type} (l : List α) (q : ℚ) : Option α :=
  if h : q.den = 1 ∧ 0 ≤ q.num ∧ q.num.toNat < l.length then
    some (l.get ⟨q.num.toNat, h.2.2⟩)
  else none

/-- Ghost.getTile: the x-y pair when the tile at the given coordinates of
the maze exists and is not a wall, none otherwise. -/
def getTile (mazeArray : List (List Char)) (y x : ℚ) : Option GridPos :=
  match numberLookup mazeArray y with
  | none => none
  | some row =>
    match numberLookup row x with
    | none => none
    | some c => if c ≠ 'X' then some { x := x, y := y } else none

/-- Ghost.determinePossibleMoves: the open neighbor tiles keyed by
direction, in the object's insertion order up, down, left, right, with
the reverse of the current direction removed. -/
def determinePossibleMoves (gridPosition : GridPos) (direction : Dir)
    (mazeArray : List (List Char)) : List (Dir × GridPos) :=
  [Dir.up, Dir.down, Dir.left, Dir.right].filterMap fun move =>
    if move = CharacterUtil.getOppositeDirection direction then none
    else
      (match move with
        | Dir.up => getTile mazeArray (gridPosition.y - 1) gridPosition.x
        | Dir.down => getTile mazeArray (gridPosition.y + 1) gridPosition.x
        | Dir.left => getTile mazeArray gridPosition.y (gridPosition.x - 1)
        | Dir.right => getTile mazeArray gridPosition.y (gridPosition.x + 1)).map
        fun tile => (move, tile)

/-- The grid coordinates that determinePossibleMoves queries for each
candidate direction (a proof-side name for the four neighbor cells). -/
def neighborTileCoords (gridPosition : GridPos) : Dir → GridPos
  | Dir.up => { x := gridPosition.x, y := gridPosition.y - 1 }
  | Dir.down => { x := gridPosition.x, y := gridPosition.y + 1 }
  | Dir.left => { x := gridPosition.x - 1, y := gridPosition.y }
  | Dir.right => { x := gridPosition.x + 1, y := gridPosition.y }

/-- Ghost.getPositionInFrontOfPacman: a position a number of spaces in
front of pacman along pacman's current direction. -/
def getPositionInFrontOfPacman (pacmanDirection : Dir)
    (pacmanGridPosition : GridPos) (spaces : ℚ) : GridPos :=
  let tileOffset : ℚ :=
    match pacmanDirection with
    | Dir.up => -spaces
    | Dir.left => -spaces
    | _ => spaces
  match pacmanDirection with
  | Dir.up => { pacmanGridPosition with y := pacmanGridPosition.y + tileOffset }
  | Dir.down => { pacmanGridPosition with y := pacmanGridPosition.y + tileOffset }
  | _ => { pacmanGridPosition with x := pacmanGridPosition.x + tileOffset }

/-- Ghost.determinePinkyTarget: four tiles in front of pacman. -/
def determinePinkyTarget (pacmanDirection : Dir) (pacmanGridPosition : GridPos) : GridPos :=
  getPositionInFrontOfPacman pacmanDirection pacmanGridPosition 4

/-- Ghost.determineInkyTarget: blinky's position mirrored across a pivot
two tiles in front of pacman. -/
def determineInkyTarget (pacmanDirection : Dir) (blinkyGridPosition : GridPos)
    (pacmanGridPosition : GridPos) : GridPos :=
  let pivotPoint := getPositionInFrontOfPacman pacmanDirection pacmanGridPosition 2
  { x := pivotPoint.x + (pivotPoint.x - blinkyGridPosition.x)
    y := pivotPoint.y + (pivotPoint.y - blinkyGridPosition.y) }

open Classical in
/-- Ghost.determineClydeTarget: pacman when more than eight tiles away,
the lower-left corner otherwise. -/
noncomputable def determineClydeTarget (gridPosition pacmanGridPosition : GridPos) : GridPos :=
  if 8 < calculateDistance gridPosition pacmanGridPosition then pacmanGridPosition
  else { x := 0, y := 30 }

/-- Ghost.getTarget: the target cell for the ghost's AI, by mode and
identity. -/
noncomputable def getTarget (env : GhostEnv) (name : GhostName)
    (gridPosition pacmanGridPosition : GridPos) (mode : Mode) : GridPos :=
  match mode with
  | Mode.eyes => { x := 27/2, y := 10 }
  | Mode.scared => pacmanGridPosition
  | Mode.scatter =>
    match name with
    | GhostName.blinky =>
      if env.cruiseElroy then pacmanGridPosition else { x := 27, y := 0 }
    | GhostName.pinky => { x := 0, y := 0 }
    | GhostName.inky => { x := 27, y := 30 }
    | GhostName.clyde => { x := 0, y := 30 }
  | Mode.chase =>
    match name with
    | GhostName.blinky => pacmanGridPosition
    | GhostName.pinky => determinePinkyTarget env.pacmanDirection pacmanGridPosition
    | GhostName.inky =>
      determineInkyTarget env.pacmanDirection env.blinkyGridPosition pacmanGridPosition
    | GhostName.clyde => determineClydeTarget gridPosition pacmanGridPosition

open Classical in
/-- The forEach loop of Ghost.determineBestMove: scans the candidate
moves in order, keeping the strictly better distance (greater for scared
mode, smaller otherwise) together with its move.  bestDistance starts at
0 or Infinity, modelled by WithTop; bestMove starts undefined. -/
noncomputable def determineBestMoveAux (scaredMode : Bool) (target : GridPos) :
    List (Dir × GridPos) → WithTop ℝ → Option Dir → Option Dir
  | [], _, bestMove => bestMove
  | (move, tile) :: rest, bestDistance, bestMove =>
    let distance := calculateDistance tile target
    if (if scaredMode then bestDistance < (distance : WithTop ℝ)
        else (distance : WithTop ℝ) < bestDistance) then
      determineBestMoveAux scaredMode target rest (distance : WithTop ℝ) (some move)
    else
      determineBestMoveAux scaredMode target rest bestDistance bestMove

/-- Ghost.determineBestMove: the candidate move optimizing the distance
to the target (maximal when scared, else minimal), scanned in the fixed
candidate order. -/
noncomputable def determineBestMove (env : GhostEnv) (name : GhostName)
    (possibleMoves : List (Dir × GridPos)) (gridPosition pacmanGridPosition : GridPos)
    (mode : Mode) : Option Dir :=
  determineBestMoveAux (mode == Mode.scared)
    (getTarget env name gridPosition pacmanGridPosition mode) possibleMoves
    (if mode == Mode.scared then (0 : WithTop ℝ) else ⊤) none

/-- Ghost.becomeScared: sets the mode to scared; on the way, reverses the
current direction unless the ghost sits in the ghost house or is already
scared; an eyes ghost is left untouched. -/
def becomeScared (scaledTileSize : ℚ) (g : GhostState) : GhostState :=
  let gridPosition := CharacterUtil.determineGridPosition g.position scaledTileSize
  if g.mode ≠ Mode.eyes then
    let g' :=
      if ¬(isInGhostHouse gridPosition = true) ∧ g.mode ≠ Mode.scared then
        { g with direction := CharacterUtil.getOppositeDirection g.direction }
      else g
    { g' with mode := Mode.scared }
  else g

open Classical in
/-- Ghost.checkCollision: when the distance to pacman is below one tile,
the ghost is not in eyes mode and collisions are enabled, a scared ghost
dispatches eatGhost and becomes eyes, any other ghost dispatches
deathSequence; otherwise nothing happens. -/
noncomputable def checkCollision (g : GhostState) (position pacman : GridPos) :
    GhostState × Option GhostEvent :=
  if calculateDistance position pacman < 1 ∧ g.mode ≠ Mode.eyes ∧
      g.allowCollision = true then
    if g.mode = Mode.scared then
      ({ g with mode := Mode.eyes }, some GhostEvent.eatGhost)
    else
      (g, some GhostEvent.deathSequence)
  else (g, none)

end Ghost

namespace Theorems

open CharacterUtil Ghost

/-- C1, counterexample: the wall-ahead test does NOT fail closed.  At the
off-grid coordinate (-5, -5) of a 1x1 maze consisting of a single wall
tile, checkForWallCollision returns false (no wall) for direction up,
contradicting the claim that every off-grid lookup reports a wall. -/
theorem c1_counterexample :
    checkForWallCollision ⟨-5, -5⟩ [['X']] Dir.up = false := by decide

/-- C1, amended: for every grid coordinate whose direction-rounded cell
lies outside the 2D maze array, checkForWallCollision returns false
(fail-open), so the wall test does not block movement onto an off-grid
cell; it reports a wall exactly when the rounded cell exists and holds
the wall character X. -/
theorem c1_checkForWallCollision_offGrid (mazeArray : List (List Char))
    (p : GridPos) (d : Dir)
    (h : cellAt mazeArray (determineRoundingFunction d p.y)
      (determineRoundingFunction d p.x) = none) :
    checkForWallCollision p mazeArray d = false ∧
      ∀ maze : List (List Char), ∀ q : GridPos, ∀ e : Dir,
        (checkForWallCollision q maze e = true ↔
          cellAt maze (determineRoundingFunction e q.y)
            (determineRoundingFunction e q.x) = some 'X') := by
  constructor
  · simp [checkForWallCollision, h]
  · intro maze q e
    simp [checkForWallCollision]

/-- Witness for C1's amended theorem at a concrete off-grid input. -/
theorem c1_witness :
    cellAt [['X']] (CharacterUtil.determineRoundingFunction Dir.up (-5 : ℚ))
      (CharacterUtil.determineRoundingFunction Dir.up (-5 : ℚ)) = none ∧
      checkForWallCollision ⟨-5, -5⟩ [['X']] Dir.up = false :=
  ⟨by decide, (c1_checkForWallCollision_offGrid [['X']] ⟨-5, -5⟩ Dir.up (by decide)).1⟩

/-- C9: snapToGrid is idempotent: converting the pixel result of
snapToGrid back to a grid position with determineGridPosition and
snapping again in the same direction yields the identical pixel
position. -/
theorem c9_snapToGrid_idempotent (p : GridPos) (d : Dir) (ts : ℚ) (h : ts ≠ 0) :
    snapToGrid (determineGridPosition (snapToGrid p d ts) ts) d ts = snapToGrid p d ts := by
  have key : ∀ c : ℚ, (c - 1/2) * ts / ts + 1/2 = c := fun c => by field_simp; ring
  cases d <;>
    simp only [snapToGrid, determineRoundingFunction, determineGridPosition, key,
      Int.floor_intCast, Int.ceil_intCast]

/-- Witness for C9 at a concrete position, direction and tile size. -/
theorem c9_witness :
    (8 : ℚ) ≠ 0 ∧
      snapToGrid (determineGridPosition (snapToGrid ⟨7/2, 5/4⟩ Dir.left 8) 8) Dir.left 8 =
        snapToGrid ⟨7/2, 5/4⟩ Dir.left 8 :=
  ⟨by norm_num, c9_snapToGrid_idempotent ⟨7/2, 5/4⟩ Dir.left 8 (by norm_num)⟩

/-- C4: Timer.pause subtracts the wall time elapsed since the timer was
last (re)scheduled from its remaining duration, and Timer.resume
reschedules the callback for exactly that remaining duration, so the
time waited before the pause plus the time waited after the resume
equals the original delay, whatever the length of the pause. -/
theorem c4_timer_pause_resume (delay t0 t1 t2 : ℤ) (sysP sysR : Bool)
    (hguard : sysR = true ∨ sysP = false) :
    (Timer.pause sysP t1 (Timer.new delay t0)).remaining = delay - (t1 - t0) ∧
      (Timer.resume sysR t2 (Timer.pause sysP t1 (Timer.new delay t0))).scheduled = true ∧
      (t1 - t0) +
        (Timer.fireTime (Timer.resume sysR t2 (Timer.pause sysP t1 (Timer.new delay t0))) - t2) =
        delay := by
  cases sysP <;> cases sysR <;>
    simp_all [Timer.new, Timer.pause, Timer.resume, Timer.fireTime]

/-- Witness for C4: a 1000ms timer scheduled at time 0, paused at 300 and
resumed at 5000 fires at 5700, i.e. 300ms waited before the pause plus
700ms after the resume. -/
theorem c4_witness :
    ((false = true ∨ false = false) ∧
      (Timer.pause false 300 (Timer.new 1000 0)).remaining = 1000 - (300 - 0) ∧
      (Timer.resume false 5000 (Timer.pause false 300 (Timer.new 1000 0))).scheduled = true ∧
      (300 - 0) +
        (Timer.fireTime (Timer.resume false 5000 (Timer.pause false 300 (Timer.new 1000 0))) - 5000) =
        1000) :=
  ⟨Or.inr rfl, c4_timer_pause_resume 1000 0 300 5000 false false (Or.inr rfl)⟩

/-- C5: for a timer paused with the system flag set, a resume without the
system flag is a no-op (the state, including pausedBySystem and the
unscheduled timeout, is unchanged), while a resume with the system flag
set reschedules the timer and clears pausedBySystem. -/
theorem c5_timer_system_pause_precedence (s : TimerState) (now : ℤ)
    (hsys : s.pausedBySystem = true) :
    Timer.resume false now s = s ∧
      (Timer.resume true now s).scheduled = true ∧
      (Timer.resume true now s).pausedBySystem = false := by
  simp [Timer.resume, hsys]

/-- Witness for C5 on a concrete system-paused timer state. -/
theorem c5_witness :
    (TimerState.mk 700 0 false true).pausedBySystem = true ∧
      (Timer.resume false 42 (TimerState.mk 700 0 false true) = TimerState.mk 700 0 false true ∧
        (Timer.resume true 42 (TimerState.mk 700 0 false true)).scheduled = true ∧
        (Timer.resume true 42 (TimerState.mk 700 0 false true)).pausedBySystem = false) :=
  ⟨rfl, c5_timer_system_pause_precedence (TimerState.mk 700 0 false true) 42 rfl⟩

/-- C6, helper: once at least k more full timesteps fit in the
accumulator and exactly k more update steps are allowed before the
maxFps bound is hit, the loop performs those k updates, panics, and
returns a zeroed accumulator with maxFps total steps. -/
theorem processFramesLoop_drain (ts : ℚ) (m : ℕ) (hts : 0 < ts) :
    ∀ k steps : ℕ, ∀ e : ℚ, steps + k = m → 1 ≤ k → (k : ℚ) * ts ≤ e →
      GameEngine.processFramesLoop ts m e steps = (0, m) := by
  intro k
  induction k with
  | zero => intro steps e _ hk; omega
  | succ k ih =>
    intro steps e hsum _ hcov
    have hge : ts ≤ e := by
      have h1 : (1 : ℚ) * ts ≤ ((k : ℚ) + 1) * ts := by
        have : (1 : ℚ) ≤ (k : ℚ) + 1 := by
          have := Nat.cast_nonneg (α := ℚ) k
          linarith
        exact mul_le_mul_of_nonneg_right this (le_of_lt hts)
      calc ts = 1 * ts := (one_mul ts).symm
        _ ≤ ((k : ℚ) + 1) * ts := h1
        _ ≤ e := by push_cast at hcov ⊢; linarith
    rw [GameEngine.processFramesLoop]
    rw [if_pos hge]
    by_cases hbound : m ≤ steps + 1
    · rw [dif_pos hbound]
      have : steps + 1 = m := by omega
      rw [this]
    · rw [dif_neg hbound]
      apply ih (steps + 1) (e - ts) (by omega) (by omega)
      push_cast at hcov ⊢
      linarith

/-- C6, helper: starting below the maxFps bound, the loop never performs
more than maxFps update steps in total. -/
theorem processFramesLoop_le (ts : ℚ) (m : ℕ) :
    ∀ fuel steps : ℕ, ∀ e : ℚ, m - steps ≤ fuel → steps < m →
      (GameEngine.processFramesLoop ts m e steps).2 ≤ m := by
  intro fuel
  induction fuel with
  | zero => intro steps e h1 h2; omega
  | succ fuel ih =>
    intro steps e h1 h2
    rw [GameEngine.processFramesLoop]
    by_cases hge : ts ≤ e
    · rw [if_pos hge]
      by_cases hbound : m ≤ steps + 1
      · rw [dif_pos hbound]; omega
      · rw [dif_neg hbound]
        exact ih (steps + 1) (e - ts) (by omega) (by omega)
    · rw [if_neg hge]
      omega

/-- C6: in a single engine cycle processFrames calls update at most
maxFps times, and whenever the accumulated unsimulated time would require
more than maxFps steps, exactly maxFps updates are applied and the whole
remaining accumulator is discarded (elapsedMs reset to 0). -/
theorem c6_processFrames_bounded (ts : ℚ) (m : ℕ) (e : ℚ)
    (hts : 0 < ts) (hm : 0 < m) :
    (GameEngine.processFrames ts m e).2 ≤ m ∧
      (((m : ℚ) + 1) * ts ≤ e → GameEngine.processFrames ts m e = (0, m)) := by
  constructor
  · exact processFramesLoop_le ts m m 0 e (by omega) hm
  · intro hcov
    apply processFramesLoop_drain ts m hts m 0 e (by omega) hm
    have : (m : ℚ) * ts ≤ ((m : ℚ) + 1) * ts := by nlinarith
    linarith

/-- Witness for C6: with timestep 5, maxFps 2 and accumulator 100 (which
would require 20 steps), exactly 2 updates run and the accumulator is
discarded. -/
theorem c6_witness :
    (0 : ℚ) < 5 ∧ (0 : ℕ) < 2 ∧ GameEngine.processFrames 5 2 100 = (0, 2) :=
  ⟨by norm_num, by norm_num,
    (c6_processFrames_bounded 5 2 100 (by norm_num) (by norm_num)).2 (by norm_num)⟩

/-- C2, counterexample: within a power window the FIRST eaten ghost is
awarded 200 points, not 100: eatGhost increments ghostCombo before
computing 100 times 2 to the combo. -/
theorem c2_counterexample :
    (GameCoordinator.eatGhost (GameCoordinator.powerUp ⟨3⟩)).2 = 200 ∧
      (GameCoordinator.eatGhost (GameCoordinator.powerUp ⟨3⟩)).2 ≠ 100 := by
  decide

/-- C2, amended: within a single power window the 1st, 2nd, 3rd and 4th
eaten ghosts award 200, 400, 800 and 1600 points (100 times 2 to the
post-increment combo count), and powerUp resets the combo count to 0 at
the start of the next power window. -/
theorem c2_combo_sequence (s : ComboState) :
    (GameCoordinator.powerUp s).ghostCombo = 0 ∧
      (GameCoordinator.eatGhost (GameCoordinator.powerUp s)).2 = 200 ∧
      (GameCoordinator.eatGhost
        (GameCoordinator.eatGhost (GameCoordinator.powerUp s)).1).2 = 400 ∧
      (GameCoordinator.eatGhost (GameCoordinator.eatGhost
        (GameCoordinator.eatGhost (GameCoordinator.powerUp s)).1).1).2 = 800 ∧
      (GameCoordinator.eatGhost (GameCoordinator.eatGhost (GameCoordinator.eatGhost
        (GameCoordinator.eatGhost (GameCoordinator.powerUp s)).1).1).1).2 = 1600 ∧
      (GameCoordinator.powerUp
        (GameCoordinator.eatGhost (GameCoordinator.eatGhost (GameCoordinator.eatGhost
          (GameCoordinator.eatGhost (GameCoordinator.powerUp s)).1).1).1).1).ghostCombo = 0 := by
  simp [GameCoordinator.powerUp, GameCoordinator.eatGhost, GameCoordinator.determineComboPoints]

/-- C10, helper: once extraLifeGiven is set, any further sequence of
awardPoints events leaves the life count unchanged and the flag set. -/
theorem awardPoints_flag_fold (es : List ℕ) :
    ∀ s : SessionState, s.extraLifeGiven = true →
      (es.foldl GameCoordinator.awardPoints s).lives = s.lives ∧
        (es.foldl GameCoordinator.awardPoints s).extraLifeGiven = true := by
  induction es with
  | nil => intro s h; exact ⟨rfl, h⟩
  | cons e es ih =>
    intro s h
    have hstep : GameCoordinator.awardPoints s e = { s with points := s.points + e } := by
      simp [GameCoordinator.awardPoints, h]
    simpa [List.foldl, hstep] using ih { s with points := s.points + e } h

/-- C10: the first awardPoints event that brings the cumulative score to
10000 or more increments lives by exactly one and sets the one-shot
extraLifeGiven flag; no subsequent sequence of awards ever increments
lives again, and an award that stays below 10000 never changes lives. -/
theorem c10_extra_life_once (s : SessionState) (e : ℕ) (es : List ℕ)
    (hflag : s.extraLifeGiven = false) (hcross : 10000 ≤ s.points + e) :
    (GameCoordinator.awardPoints s e).lives = s.lives + 1 ∧
      (GameCoordinator.awardPoints s e).extraLifeGiven = true ∧
      (es.foldl GameCoordinator.awardPoints (GameCoordinator.awardPoints s e)).lives =
        s.lives + 1 ∧
      (∀ t : SessionState, ∀ a : ℕ, t.points + a < 10000 →
        (GameCoordinator.awardPoints t a).lives = t.lives) := by
  have hstep : GameCoordinator.awardPoints s e =
      { points := s.points + e, lives := s.lives + 1, extraLifeGiven := true } := by
    simp [GameCoordinator.awardPoints, hflag, hcross]
  refine ⟨by rw [hstep], by rw [hstep], ?_, ?_⟩
  · rw [hstep]
    exact (awardPoints_flag_fold es _ rfl).1
  · intro t a hlt
    simp [GameCoordinator.awardPoints, Nat.not_le.mpr hlt]

/-- Witness for C10: from 9900 points and 2 lives, a 200-point award
grants the single extra life and two later 5000-point awards do not. -/
theorem c10_witness :
    (SessionState.mk 9900 2 false).extraLifeGiven = false ∧
      10000 ≤ (SessionState.mk 9900 2 false).points + 200 ∧
      (GameCoordinator.awardPoints (SessionState.mk 9900 2 false) 200).lives = 3 ∧
      ([5000, 5000].foldl GameCoordinator.awardPoints
        (GameCoordinator.awardPoints (SessionState.mk 9900 2 false) 200)).lives = 3 :=
  ⟨rfl, by norm_num,
    (c10_extra_life_once (SessionState.mk 9900 2 false) 200 [5000, 5000] rfl (by norm_num)).1,
    (c10_extra_life_once (SessionState.mk 9900 2 false) 200 [5000, 5000] rfl (by norm_num)).2.2.1⟩

/-- Helper for C7: the concrete grid position used by the C7
counterexample and witness lies outside the ghost house. -/
theorem house_ex :
    Ghost.isInGhostHouse (determineGridPosition ⟨1/2, 1/2⟩ 1) = false := by
  simp [Ghost.isInGhostHouse, determineGridPosition]
  norm_num

/-- C7, counterexample: a ghost that is outside the home pen but already
in scared mode keeps its direction when becomeScared runs again (a second
power pellet during an active window), contradicting the claim that every
ghost outside the pen has its direction reversed. -/
theorem c7_counterexample :
    Ghost.isInGhostHouse (determineGridPosition ⟨1/2, 1/2⟩ 1) = false ∧
      (Ghost.becomeScared 1 (GhostState.mk Mode.scared Dir.up ⟨1/2, 1/2⟩ true)).direction ≠
        getOppositeDirection Dir.up := by
  refine ⟨house_ex, ?_⟩
  simp [Ghost.becomeScared, getOppositeDirection]

/-- C7, amended: for every ghost not inside the home pen whose mode is
neither scared nor eyes, becomeScared reverses the current direction; a
ghost inside the home pen (whatever its mode), or one already in scared
or eyes mode, keeps its direction (an eyes ghost is left entirely
unchanged); every non-eyes ghost ends up in scared mode. -/
theorem c7_becomeScared_reverses (g : GhostState) (ts : ℚ) :
    ((g.mode ≠ Mode.scared → g.mode ≠ Mode.eyes →
        Ghost.isInGhostHouse (determineGridPosition g.position ts) = false →
        (Ghost.becomeScared ts g).direction = getOppositeDirection g.direction) ∧
      (Ghost.isInGhostHouse (determineGridPosition g.position ts) = true →
        (Ghost.becomeScared ts g).direction = g.direction)) ∧
      ((g.mode = Mode.scared → (Ghost.becomeScared ts g).direction = g.direction) ∧
        (g.mode = Mode.eyes → Ghost.becomeScared ts g = g)) ∧
      (g.mode ≠ Mode.eyes → (Ghost.becomeScared ts g).mode = Mode.scared) := by
  cases hm : g.mode <;>
    by_cases hh : Ghost.isInGhostHouse (determineGridPosition g.position ts) = true <;>
    simp_all [Ghost.becomeScared]

/-- Witness for C7's amended theorem: outside the pen, a chase-mode ghost
has its direction reversed, an already-scared ghost keeps its direction,
and an eyes ghost is left entirely unchanged. -/
theorem c7_witness :
    (Ghost.becomeScared 1 (GhostState.mk Mode.chase Dir.up ⟨1/2, 1/2⟩ true)).direction =
        getOppositeDirection Dir.up ∧
      (Ghost.becomeScared 1 (GhostState.mk Mode.scared Dir.up ⟨1/2, 1/2⟩ true)).direction =
        Dir.up ∧
      Ghost.becomeScared 1 (GhostState.mk Mode.eyes Dir.up ⟨1/2, 1/2⟩ true) =
        GhostState.mk Mode.eyes Dir.up ⟨1/2, 1/2⟩ true :=
  ⟨(c7_becomeScared_reverses (GhostState.mk Mode.chase Dir.up ⟨1/2, 1/2⟩ true) 1).1.1
      (by decide) (by decide) house_ex,
    (c7_becomeScared_reverses (GhostState.mk Mode.scared Dir.up ⟨1/2, 1/2⟩ true) 1).2.1.1 rfl,
    (c7_becomeScared_reverses (GhostState.mk Mode.eyes Dir.up ⟨1/2, 1/2⟩ true) 1).2.1.2 rfl⟩

/-- C8: when the distance between ghost and pacman is below one tile and
collisions are enabled, a scared ghost becomes eyes and emits eatGhost
(and no deathSequence); a ghost in neither scared nor eyes mode keeps its
state and emits deathSequence; an eyes ghost emits nothing. -/
theorem c8_checkCollision_events (g : GhostState) (position pacman : GridPos)
    (hdist : Ghost.calculateDistance position pacman < 1)
    (hallow : g.allowCollision = true) :
    (g.mode = Mode.scared →
        Ghost.checkCollision g position pacman =
          ({ g with mode := Mode.eyes }, some GhostEvent.eatGhost)) ∧
      (g.mode ≠ Mode.scared → g.mode ≠ Mode.eyes →
        Ghost.checkCollision g position pacman = (g, some GhostEvent.deathSequence)) ∧
      (g.mode = Mode.eyes → Ghost.checkCollision g position pacman = (g, none)) := by
  refine ⟨fun hs => ?_, fun hs he => ?_, fun he => ?_⟩
  · have hne : g.mode ≠ Mode.eyes := by rw [hs]; decide
    simp [Ghost.checkCollision, hdist, hne, hallow, hs]
  · simp [Ghost.checkCollision, hdist, he, hallow, hs]
  · simp [Ghost.checkCollision, he]

/-- Witness for C8: a scared ghost colliding with pacman at the same cell
becomes eyes and emits the eatGhost event. -/
theorem c8_witness :
    Ghost.calculateDistance ⟨1, 1⟩ ⟨1, 1⟩ < 1 ∧
      (GhostState.mk Mode.scared Dir.up ⟨0, 0⟩ true).allowCollision = true ∧
      Ghost.checkCollision (GhostState.mk Mode.scared Dir.up ⟨0, 0⟩ true) ⟨1, 1⟩ ⟨1, 1⟩ =
        (GhostState.mk Mode.eyes Dir.up ⟨0, 0⟩ true, some GhostEvent.eatGhost) := by
  have hdist : Ghost.calculateDistance ⟨1, 1⟩ ⟨1, 1⟩ < 1 := by
    simp [Ghost.calculateDistance]
  exact ⟨hdist, rfl,
    (c8_checkCollision_events (GhostState.mk Mode.scared Dir.up ⟨0, 0⟩ true) ⟨1, 1⟩ ⟨1, 1⟩
      hdist rfl).1 rfl⟩

/-- C3, helper: when no candidate's distance beats the running best
strictly from below, the scan returns the accumulated best move. -/
theorem auxMin_no_improvement (target : GridPos) :
    ∀ (l : List (Dir × GridPos)) (bestD : WithTop ℝ) (best : Option Dir),
      (∀ c ∈ l, ¬ ((calculateDistance c.2 target : WithTop ℝ) < bestD)) →
      determineBestMoveAux false target l bestD best = best := by
  intro l
  induction l with
  | nil => intro bestD best _; rfl
  | cons c rest ih =>
    intro bestD best h
    obtain ⟨move, tile⟩ := c
    have hc := h (move, tile) (List.mem_cons_self _ _)
    rw [determineBestMoveAux]
    simp only [Bool.false_eq_true, if_false]
    rw [if_neg hc]
    exact ih bestD best fun b hb => h b (List.mem_cons_of_mem _ hb)

/-- C3, helper: when some candidate's distance is strictly below the
running best, the scan returns the first candidate achieving the list's
minimum distance: the list splits around the returned candidate, every
element attains at least its distance, and every earlier element is
strictly farther from the target. -/
theorem auxMin_first_min (target : GridPos) :
    ∀ (l : List (Dir × GridPos)) (bestD : WithTop ℝ) (best : Option Dir),
      (∃ c ∈ l, (calculateDistance c.2 target : WithTop ℝ) < bestD) →
      ∃ pre cand post, l = pre ++ cand :: post ∧
        determineBestMoveAux false target l bestD best = some cand.1 ∧
        (calculateDistance cand.2 target : WithTop ℝ) < bestD ∧
        (∀ b ∈ l, calculateDistance cand.2 target ≤ calculateDistance b.2 target) ∧
        (∀ b ∈ pre, calculateDistance cand.2 target < calculateDistance b.2 target) := by
  intro l
  induction l with
  | nil => intro bestD best h; simp at h
  | cons c rest ih =>
    intro bestD best h
    obtain ⟨move, tile⟩ := c
    by_cases hc : (calculateDistance tile target : WithTop ℝ) < bestD
    · rw [determineBestMoveAux]
      simp only [Bool.false_eq_true, if_false]
      rw [if_pos hc]
      by_cases himp : ∃ b ∈ rest,
          (calculateDistance b.2 target : WithTop ℝ) < (calculateDistance tile target : WithTop ℝ)
      · obtain ⟨pre, cand, post, hsplit, hres, hlt, hall, hpre⟩ :=
          ih (calculateDistance tile target : WithTop ℝ) (some move) himp
      
        refine ⟨(move, tile) :: pre, cand, post, by rw [hsplit, List.cons_append], hres, lt_trans hlt hc, ?_, ?_⟩
        · intro b hb
          rcases List.mem_cons.mp hb with hb | hb
          · subst hb
            exact le_of_lt (WithTop.coe_lt_coe.mp hlt)
          · exact hall b hb
        · intro b hb
          rcases List.mem_cons.mp hb with hb | hb
          · subst hb
            exact WithTop.coe_lt_coe.mp hlt
          · exact hpre b hb
      · push_neg at himp
        rw [auxMin_no_improvement target rest _ _ (fun b hb => not_lt.mpr (himp b hb))]
        refine ⟨[], (move, tile), rest, rfl, rfl, hc, ?_, by simp⟩
        intro b hb
        rcases List.mem_cons.mp hb with hb | hb
        · subst hb
          exact le_rfl
        · exact WithTop.coe_le_coe.mp (himp b hb)
    · rw [determineBestMoveAux]
      simp only [Bool.false_eq_true, if_false]
      rw [if_neg hc]
      have hrest : ∃ b ∈ rest, (calculateDistance b.2 target : WithTop ℝ) < bestD := by
        obtain ⟨b, hb, hblt⟩ := h
        rcases List.mem_cons.mp hb with hb | hb
        · subst hb; exact absurd hblt hc
        · exact ⟨b, hb, hblt⟩
      obtain ⟨pre, cand, post, hsplit, hres, hlt, hall, hpre⟩ := ih bestD best hrest
      have hcandc : calculateDistance cand.2 target < calculateDistance tile target := by
        have h1 : bestD ≤ (calculateDistance tile target : WithTop ℝ) := not_lt.mp hc
        exact WithTop.coe_lt_coe.mp (lt_of_lt_of_le hlt h1)
      refine ⟨(move, tile) :: pre, cand, post, by rw [hsplit, List.cons_append], hres, hlt, ?_, ?_⟩
      · intro b hb
        rcases List.mem_cons.mp hb with hb | hb
        · subst hb; exact le_of_lt hcandc
        · exact hall b hb
      · intro b hb
        rcases List.mem_cons.mp hb with hb | hb
        · subst hb; exact hcandc
        · exact hpre b hb

/-- C3, helper: scared-mode dual of the no-improvement lemma. -/
theorem auxMax_no_improvement (target : GridPos) :
    ∀ (l : List (Dir × GridPos)) (bestD : WithTop ℝ) (best : Option Dir),
      (∀ c ∈ l, ¬ (bestD < (calculateDistance c.2 target : WithTop ℝ))) →
      determineBestMoveAux true target l bestD best = best := by
  intro l
  induction l with
  | nil => intro bestD best _; rfl
  | cons c rest ih =>
    intro bestD best h
    obtain ⟨move, tile⟩ := c
    have hc := h (move, tile) (List.mem_cons_self _ _)
    rw [determineBestMoveAux]
    simp only [if_true]
    rw [if_neg hc]
    exact ih bestD best fun b hb => h b (List.mem_cons_of_mem _ hb)

/-- C3, helper: scared-mode dual: when some candidate's distance is
strictly above the running best, the scan returns the first candidate
achieving the list's maximum distance. -/
theorem auxMax_first_max (target : GridPos) :
    ∀ (l : List (Dir × GridPos)) (bestD : WithTop ℝ) (best : Option Dir),
      (∃ c ∈ l, bestD < (calculateDistance c.2 target : WithTop ℝ)) →
      ∃ pre cand post, l = pre ++ cand :: post ∧
        determineBestMoveAux true target l bestD best = some cand.1 ∧
        bestD < (calculateDistance cand.2 target : WithTop ℝ) ∧
        (∀ b ∈ l, calculateDistance b.2 target ≤ calculateDistance cand.2 target) ∧
        (∀ b ∈ pre, calculateDistance b.2 target < calculateDistance cand.2 target) := by
  intro l
  induction l with
  | nil => intro bestD best h; simp at h
  | cons c rest ih =>
    intro bestD best h
    obtain ⟨move, tile⟩ := c
    by_cases hc : bestD < (calculateDistance tile target : WithTop ℝ)
    · rw [determineBestMoveAux]
      simp only [if_true]
      rw [if_pos hc]
      by_cases himp : ∃ b ∈ rest,
          (calculateDistance tile target : WithTop ℝ) < (calculateDistance b.2 target : WithTop ℝ)
      · obtain ⟨pre, cand, post, hsplit, hres, hlt, hall, hpre⟩ :=
          ih (calculateDistance tile target : WithTop ℝ) (some move) himp
        refine ⟨(move, tile) :: pre, cand, post, by rw [hsplit, List.cons_append], hres,
          lt_trans hc hlt, ?_, ?_⟩
        · intro b hb
          rcases List.mem_cons.mp hb with hb | hb
          · subst hb
            exact le_of_lt (WithTop.coe_lt_coe.mp hlt)
          · exact hall b hb
        · intro b hb
          rcases List.mem_cons.mp hb with hb | hb
          · subst hb
            exact WithTop.coe_lt_coe.mp hlt
          · exact hpre b hb
      · push_neg at himp
        rw [auxMax_no_improvement target rest _ _ (fun b hb => not_lt.mpr (himp b hb))]
        refine ⟨[], (move, tile), rest, rfl, rfl, hc, ?_, by simp⟩
        intro b hb
        rcases List.mem_cons.mp hb with hb | hb
        · subst hb
          exact le_rfl
        · exact WithTop.coe_le_coe.mp (himp b hb)
    · rw [determineBestMoveAux]
      simp only [if_true]
      rw [if_neg hc]
      have hrest : ∃ b ∈ rest, bestD < (calculateDistance b.2 target : WithTop ℝ) := by
        obtain ⟨b, hb, hblt⟩ := h
        rcases List.mem_cons.mp hb with hb | hb
        · subst hb; exact absurd hblt hc
        · exact ⟨b, hb, hblt⟩
      obtain ⟨pre, cand, post, hsplit, hres, hlt, hall, hpre⟩ := ih bestD best hrest
      have hcandc : calculateDistance tile target < calculateDistance cand.2 target := by
        have h1 : (calculateDistance tile target : WithTop ℝ) ≤ bestD := not_lt.mp hc
        exact WithTop.coe_lt_coe.mp (lt_of_le_of_lt h1 hlt)
      refine ⟨(move, tile) :: pre, cand, post, by rw [hsplit, List.cons_append], hres, hlt, ?_, ?_⟩
      · intro b hb
        rcases List.mem_cons.mp hb with hb | hb
        · subst hb; exact le_of_lt hcandc
        · exact hall b hb
      · intro b hb
        rcases List.mem_cons.mp hb with hb | hb
        · subst hb; exact hcandc
        · exact hpre b hb

/-- C3, helper: a successful getTile returns exactly the queried
coordinates. -/
theorem getTile_eq_coords (maze : List (List Char)) (y x : ℚ) (t : GridPos)
    (h : getTile maze y x = some t) : t = ⟨x, y⟩ := by
  unfold getTile at h
  split at h
  · exact absurd h (by simp)
  · split at h
    · exact absurd h (by simp)
    · split at h
      · exact (Option.some.inj h).symm
      · exact absurd h (by simp)

/-- C3, helper: every entry of determinePossibleMoves carries the
neighbor coordinates of its own direction. -/
theorem mem_possibleMoves_coords (gp : GridPos) (dir : Dir) (maze : List (List Char)) :
    ∀ mv ∈ determinePossibleMoves gp dir maze, mv.2 = neighborTileCoords gp mv.1 := by
  intro mv hmv
  unfold determinePossibleMoves at hmv
  obtain ⟨a, _, hfa⟩ := List.mem_filterMap.mp hmv
  by_cases hopp : a = CharacterUtil.getOppositeDirection dir
  · rw [if_pos hopp] at hfa
    exact absurd hfa (by simp)
  · rw [if_neg hopp] at hfa
    cases a <;>
    · obtain ⟨t, ht, hmt⟩ := Option.map_eq_some'.mp hfa
      have := getTile_eq_coords _ _ _ _ ht
      subst hmt
      simp [neighborTileCoords, this]

/-- C3, helper: the directions of determinePossibleMoves form a sublist
of the scan order up, down, left, right (hence are pairwise distinct). -/
theorem possibleMoves_fst_sublist (gp : GridPos) (dir : Dir) (maze : List (List Char)) :
    List.Sublist ((determinePossibleMoves gp dir maze).map Prod.fst)
      [Dir.up, Dir.down, Dir.left, Dir.right] := by
  unfold determinePossibleMoves
  generalize hf : (fun move => if move = CharacterUtil.getOppositeDirection dir then none
    else (match move with
      | Dir.up => getTile maze (gp.y - 1) gp.x
      | Dir.down => getTile maze (gp.y + 1) gp.x
      | Dir.left => getTile maze gp.y (gp.x - 1)
      | Dir.right => getTile maze gp.y (gp.x + 1)).map fun tile => (move, tile)) = f
  have key : ∀ (a : Dir) (b : Dir × GridPos), f a = some b → b.1 = a := by
    intro a b hab
    rw [← hf] at hab
    by_cases hopp : a = CharacterUtil.getOppositeDirection dir
    · simp only [if_pos hopp] at hab
      exact absurd hab (by simp)
    · simp only [if_neg hopp] at hab
      obtain ⟨t, _, hmt⟩ := Option.map_eq_some'.mp hab
      rw [← hmt]
  have go : ∀ l : List Dir, List.Sublist ((l.filterMap f).map Prod.fst) l := by
    intro l
    induction l with
    | nil => simp
    | cons a l ih =>
      cases hfa : f a with
      | none =>
        rw [List.filterMap_cons_none hfa]
        exact ih.cons a
      | some b =>
        rw [List.filterMap_cons_some hfa]
        simp only [List.map_cons, key a b hfa]
        exact ih.cons₂ a
  exact go _

/-- C3, helper: distinct directions give distinct neighbor cells. -/
theorem neighborTileCoords_injective (gp : GridPos) (d1 d2 : Dir) (hne : d1 ≠ d2) :
    neighborTileCoords gp d1 ≠ neighborTileCoords gp d2 := by
  cases d1 <;> cases d2 <;>
    simp_all [neighborTileCoords, GridPos.mk.injEq] <;>
    intro h <;> linarith

/-- C3, helper: the distance between distinct grid positions is
positive. -/
theorem calculateDistance_pos (p q : GridPos) (hne : p ≠ q) :
    0 < calculateDistance p q := by
  unfold calculateDistance
  apply Real.sqrt_pos.mpr
  have hor : p.x ≠ q.x ∨ p.y ≠ q.y := by
    by_contra hcon
    push_neg at hcon
    exact hne (by cases p; cases q; simp_all)
  rcases hor with h | h
  · have hx : ((p.x : ℝ) - (q.x : ℝ)) ≠ 0 := by
      have : (p.x : ℝ) ≠ (q.x : ℝ) := by exact_mod_cast h
      exact sub_ne_zero.mpr this
    have h1 : 0 < ((p.x : ℝ) - (q.x : ℝ)) ^ 2 := by positivity
    have h2 : 0 ≤ ((p.y : ℝ) - (q.y : ℝ)) ^ 2 := sq_nonneg _
    linarith
  · have hy : ((p.y : ℝ) - (q.y : ℝ)) ≠ 0 := by
      have : (p.y : ℝ) ≠ (q.y : ℝ) := by exact_mod_cast h
      exact sub_ne_zero.mpr this
    have h1 : 0 < ((p.y : ℝ) - (q.y : ℝ)) ^ 2 := by positivity
    have h2 : 0 ≤ ((p.x : ℝ) - (q.x : ℝ)) ^ 2 := sq_nonneg _
    linarith

/-- C3, helper: with at least two candidate moves, some candidate lies at
positive distance from any given target (two distinct cells cannot both
coincide with it). -/
theorem possibleMoves_far_candidate (gp : GridPos) (dir : Dir) (maze : List (List Char))
    (target : GridPos) (h2 : 2 ≤ (determinePossibleMoves gp dir maze).length) :
    ∃ c ∈ determinePossibleMoves gp dir maze, 0 < calculateDistance c.2 target := by
  match hsplit : determinePossibleMoves gp dir maze, h2 with
  | a :: b :: rest, _ =>
    have hmem_a : a ∈ determinePossibleMoves gp dir maze := by rw [hsplit]; simp
    have hmem_b : b ∈ determinePossibleMoves gp dir maze := by rw [hsplit]; simp
    have ha := mem_possibleMoves_coords gp dir maze a hmem_a
    have hb := mem_possibleMoves_coords gp dir maze b hmem_b
    have hfst : a.1 ≠ b.1 := by
      have hnodup : ((determinePossibleMoves gp dir maze).map Prod.fst).Nodup :=
        List.Nodup.sublist (possibleMoves_fst_sublist gp dir maze) (by decide)
      rw [hsplit] at hnodup
      simp only [List.map_cons, List.nodup_cons, List.mem_cons, List.mem_map] at hnodup
      exact fun hcon => hnodup.1 (Or.inl hcon)
    have hpos : a.2 ≠ b.2 := by
      rw [ha, hb]
      exact neighborTileCoords_injective gp a.1 b.1 hfst
    by_cases hat : a.2 = target
    · refine ⟨b, by simp, calculateDistance_pos b.2 target fun hbt => ?_⟩
      exact hpos (by rw [hat, hbt])
    · exact ⟨a, by simp, calculateDistance_pos a.2 target hat⟩

/-- C3: at a decision point with at least two legal neighbors (open,
on the maze, the reverse direction excluded), determineBestMove returns
the move of a candidate that maximizes the Euclidean distance to pacman's
cell in scared mode and minimizes the Euclidean distance to the mode's
target otherwise, and every candidate scanned earlier (in the fixed order
up, down, left, right) is strictly worse, so the first qualifying
optimum wins ties. -/
theorem c3_determineBestMove_optimal (env : GhostEnv) (name : GhostName)
    (gp pacman : GridPos) (dir : Dir) (maze : List (List Char)) (mode : Mode)
    (h2 : 2 ≤ (determinePossibleMoves gp dir maze).length) :
    ∃ pre cand post,
      determinePossibleMoves gp dir maze = pre ++ cand :: post ∧
      determineBestMove env name (determinePossibleMoves gp dir maze) gp pacman mode =
        some cand.1 ∧
      (mode = Mode.scared →
        (∀ b ∈ determinePossibleMoves gp dir maze,
            calculateDistance b.2 pacman ≤ calculateDistance cand.2 pacman) ∧
          ∀ b ∈ pre, calculateDistance b.2 pacman < calculateDistance cand.2 pacman) ∧
      (mode ≠ Mode.scared →
        (∀ b ∈ determinePossibleMoves gp dir maze,
            calculateDistance cand.2 (getTarget env name gp pacman mode) ≤
              calculateDistance b.2 (getTarget env name gp pacman mode)) ∧
          ∀ b ∈ pre,
            calculateDistance cand.2 (getTarget env name gp pacman mode) <
              calculateDistance b.2 (getTarget env name gp pacman mode)) := by
  by_cases hm : mode = Mode.scared
  · subst hm
    have hex : ∃ c ∈ determinePossibleMoves gp dir maze,
        (0 : WithTop ℝ) < (calculateDistance c.2 pacman : WithTop ℝ) := by
      obtain ⟨c, hc, hpos⟩ := possibleMoves_far_candidate gp dir maze pacman h2
      exact ⟨c, hc, by exact_mod_cast hpos⟩
    obtain ⟨pre, cand, post, hsplit, hres, _, hall, hpre⟩ :=
      auxMax_first_max pacman (determinePossibleMoves gp dir maze) 0 none hex
    refine ⟨pre, cand, post, hsplit, ?_, fun _ => ⟨hall, hpre⟩, fun hns => absurd rfl hns⟩
    simpa [determineBestMove, getTarget] using hres
  · have hbeq : (mode == Mode.scared) = false := beq_eq_false_iff_ne.mpr hm
    have hex : ∃ c ∈ determinePossibleMoves gp dir maze,
        (calculateDistance c.2 (getTarget env name gp pacman mode) : WithTop ℝ) < ⊤ := by
      cases hm2 : determinePossibleMoves gp dir maze with
      | nil => rw [hm2] at h2; simp at h2
      | cons a t => exact ⟨a, by simp, WithTop.coe_lt_top _⟩
    obtain ⟨pre, cand, post, hsplit, hres, _, hall, hpre⟩ :=
      auxMin_first_min (getTarget env name gp pacman mode)
        (determinePossibleMoves gp dir maze) ⊤ none hex
    refine ⟨pre, cand, post, hsplit, ?_, fun hs => absurd hs hm, fun _ => ⟨hall, hpre⟩⟩
    simpa [determineBestMove, hbeq] using hres

/-- C3, helper: the concrete candidate list used by the C3 witness. -/
theorem c3_moves_concrete : determinePossibleMoves ⟨1, 1⟩ Dir.up
    [['o', 'o', 'o'], ['o', 'o', 'o'], ['o', 'o', 'o']] =
    [(Dir.up, ⟨1, 0⟩), (Dir.left, ⟨0, 1⟩), (Dir.right, ⟨2, 1⟩)] := by
  norm_num [determinePossibleMoves, getTile, numberLookup, CharacterUtil.getOppositeDirection,
    Int.toNat_ofNat, List.filterMap_cons, List.filterMap_nil]
  decide

/-- Witness for C3: in a fully open 3x3 maze, a chase-mode blinky at
(1,1) moving up has three candidate moves and the theorem applies. -/
theorem c3_witness :
    2 ≤ (Ghost.determinePossibleMoves ⟨1, 1⟩ Dir.up
      [['o', 'o', 'o'], ['o', 'o', 'o'], ['o', 'o', 'o']]).length ∧
      (∃ pre cand post,
        Ghost.determinePossibleMoves ⟨1, 1⟩ Dir.up
          [['o', 'o', 'o'], ['o', 'o', 'o'], ['o', 'o', 'o']] = pre ++ cand :: post ∧
        Ghost.determineBestMove ⟨Dir.left, ⟨0, 0⟩, false⟩ GhostName.blinky
          (Ghost.determinePossibleMoves ⟨1, 1⟩ Dir.up
            [['o', 'o', 'o'], ['o', 'o', 'o'], ['o', 'o', 'o']]) ⟨1, 1⟩ ⟨0, 0⟩ Mode.chase =
          some cand.1 ∧
        (Mode.chase = Mode.scared →
          (∀ b ∈ Ghost.determinePossibleMoves ⟨1, 1⟩ Dir.up
              [['o', 'o', 'o'], ['o', 'o', 'o'], ['o', 'o', 'o']],
              Ghost.calculateDistance b.2 ⟨0, 0⟩ ≤ Ghost.calculateDistance cand.2 ⟨0, 0⟩) ∧
            ∀ b ∈ pre, Ghost.calculateDistance b.2 ⟨0, 0⟩ < Ghost.calculateDistance cand.2 ⟨0, 0⟩) ∧
        (Mode.chase ≠ Mode.scared →
          (∀ b ∈ Ghost.determinePossibleMoves ⟨1, 1⟩ Dir.up
              [['o', 'o', 'o'], ['o', 'o', 'o'], ['o', 'o', 'o']],
              Ghost.calculateDistance cand.2
                  (Ghost.getTarget ⟨Dir.left, ⟨0, 0⟩, false⟩ GhostName.blinky ⟨1, 1⟩ ⟨0, 0⟩ Mode.chase) ≤
                Ghost.calculateDistance b.2
                  (Ghost.getTarget ⟨Dir.left, ⟨0, 0⟩, false⟩ GhostName.blinky ⟨1, 1⟩ ⟨0, 0⟩ Mode.chase)) ∧
            ∀ b ∈ pre,
              Ghost.calculateDistance cand.2
                  (Ghost.getTarget ⟨Dir.left, ⟨0, 0⟩, false⟩ GhostName.blinky ⟨1, 1⟩ ⟨0, 0⟩ Mode.chase) <
                Ghost.calculateDistance b.2
                  (Ghost.getTarget ⟨Dir.left, ⟨0, 0⟩, false⟩ GhostName.blinky ⟨1, 1⟩ ⟨0, 0⟩ Mode.chase))) :=
  ⟨by rw [c3_moves_concrete]; decide,
    c3_determineBestMove_optimal ⟨Dir.left, ⟨0, 0⟩, false⟩ GhostName.blinky ⟨1, 1⟩ ⟨0, 0⟩
      Dir.up [['o', 'o', 'o'], ['o', 'o', 'o'], ['o', 'o', 'o']] Mode.chase
      (by rw [c3_moves_concrete]; decide)⟩


end Theorems

end PacmanSim
